import Mathlib

/-!
Verification of the MCQDetect answer-sheet scanner.

This file gives a shallow embedding of the two correctness-critical modules,
`4-mcq_detect/mcq_scanner.py` (class `MCQAnswerSheetScanner`) and
`3-crop_straighted/image_straightener.py` (`ImageStraightener.detect_corner_markers`),
and proves properties of the embedded functions.

Modelling conventions:
- OpenCV primitives (`imread`, `cvtColor`, `GaussianBlur`, `adaptiveThreshold`,
  `findContours`, `contourArea`, `arcLength`, `boundingRect`) are external
  library calls, not code of this repository.  Their results are taken as
  inputs: a `ThreshImage` carries the binarized pixel grid together with the
  contours `findContours` extracted from it (each contour reduced to the data
  the repository actually reads: area, perimeter and bounding box).
  `cv2.imread` returning `None` for an unreadable file is modelled by an
  `Option` input.
- Python floats are modelled by exact rationals; `np.pi` is modelled by the
  exact rational value of the IEEE-754 double constant.
- Python `list.sort` / `sorted` are stable sorts; they are modelled by
  Mathlib's `List.insertionSort`, which is also stable.
- The Python `dict` of answers only ever receives distinct keys (proved
  below), so it is modelled by an association list built in insertion order.
-/

namespace MCQDetect

/-- A bubble candidate as built by `MCQAnswerSheetScanner.detect_bubbles`:
center, bounding box and fill ratio (`area` and `contour` are carried along in
the Python dict but never read downstream, so they are dropped here). -/
structure Bubble where
  cx : Int
  cy : Int
  x : Nat
  y : Nat
  w : Nat
  h : Nat
  fillRatio : ℚ
deriving DecidableEq

/-- The data the repository reads off one OpenCV contour: `cv2.contourArea`,
`cv2.arcLength` and `cv2.boundingRect`. -/
structure Contour where
  area : ℚ
  perimeter : ℚ
  x : Nat
  y : Nat
  w : Nat
  h : Nat
deriving DecidableEq

/-- A successfully loaded and thresholded image: the binary pixel grid
produced by `cv2.adaptiveThreshold` (entries 0 or 255), together with the
external contours `cv2.findContours` found in it. -/
structure ThreshImage where
  pixels : List (List Nat)
  contours : List Contour
deriving DecidableEq

/-- The exact rational value of the IEEE-754 double constant `np.pi`. -/
def npPi : ℚ := 884279719003555 / 281474976710656

/-- Pixel lookup in the thresholded grid; out-of-range indices read as 0,
matching numpy slice truncation (`thresh[y:y+h, x:x+w]` silently clips). -/
def pixelAt (img : ThreshImage) (r c : Nat) : Nat :=
  (img.pixels.getD r []).getD c 0

/-- `np.sum(thresh_img[y:y+h, x:x+w])`: sum of the binary pixel values over
the contour bounding box. -/
def boxSum (img : ThreshImage) (x y w h : Nat) : Nat :=
  ((List.range h).map fun i =>
    ((List.range w).map fun j => pixelAt img (y + i) (x + j)).sum).sum

/-- The contour filters of `detect_bubbles` (lines 44-63): area band,
nonzero perimeter, circularity `4*pi*area/perimeter^2` at least 0.6, and
bounding-box aspect ratio within [0.7, 1.3]. -/
def keepContour (c : Contour) : Bool :=
  !(decide (c.area < 100) || decide (2000 < c.area)) &&
  decide (c.perimeter ≠ 0) &&
  !decide (4 * npPi * c.area / (c.perimeter * c.perimeter) < 3/5) &&
  !(decide ((c.w : ℚ) / (c.h : ℚ) < 7/10) || decide ((13 : ℚ)/10 < (c.w : ℚ) / (c.h : ℚ)))

/-- Bubble record built from a surviving contour (lines 65-79):
`center = (x + w // 2, y + h // 2)` and
`fill_ratio = np.sum(region) / (255 * w * h)`. -/
def mkBubble (img : ThreshImage) (c : Contour) : Bubble :=
  { cx := ((c.x + c.w / 2 : Nat) : Int)
    cy := ((c.y + c.h / 2 : Nat) : Int)
    x := c.x, y := c.y, w := c.w, h := c.h
    fillRatio := (boxSum img c.x c.y c.w c.h : ℚ) / (255 * (c.w : ℚ) * (c.h : ℚ)) }

/-- `MCQAnswerSheetScanner.detect_bubbles`. -/
def detectBubbles (img : ThreshImage) : List Bubble :=
  (img.contours.filter keepContour).map (mkBubble img)

/-- Comparison used by `bubbles.sort(key=lambda b: b['center'][1])`. -/
def bubbleLeY (a b : Bubble) : Prop := a.cy ≤ b.cy

instance : DecidableRel bubbleLeY := fun a b => inferInstanceAs (Decidable (a.cy ≤ b.cy))

/-- Comparison used by `row.sort(key=lambda b: b['center'][0])`. -/
def bubbleLeX (a b : Bubble) : Prop := a.cx ≤ b.cx

instance : DecidableRel bubbleLeX := fun a b => inferInstanceAs (Decidable (a.cx ≤ b.cx))

/-- Stable sort by y-coordinate. -/
def sortByY (bs : List Bubble) : List Bubble := List.insertionSort bubbleLeY bs

/-- Stable sort by x-coordinate. -/
def sortByX (bs : List Bubble) : List Bubble := List.insertionSort bubbleLeX bs

/-- The row-building walk of `organize_bubbles_by_rows` (lines 96-107):
`lastY` is the y of the bubble that most recently started a row (the Python
`last_y`, updated only when a new row is opened), `cur` the row being built.
A new row starts when `abs(y - last_y) > tolerance`. -/
def rowWalk (tol lastY : Int) (cur : List Bubble) : List Bubble → List (List Bubble)
  | [] => [cur]
  | b :: rest =>
    if tol < |b.cy - lastY| then
      cur :: rowWalk tol b.cy [b] rest
    else
      rowWalk tol lastY (cur ++ [b]) rest

/-- The y-clustering part of `organize_bubbles_by_rows` (lines 85-107):
sort by y, initialize `last_y` to the first bubble's y (`tolerance = 20`),
and walk.  The rows dict, keyed 0,1,2,... in insertion order, is modelled by
the list of rows in that order. -/
def clusterRows (bs : List Bubble) : List (List Bubble) :=
  match sortByY bs with
  | [] => []
  | b :: rest => rowWalk 20 b.cy [] (b :: rest)

/-- `MCQAnswerSheetScanner.organize_bubbles_by_rows`: cluster by y, then sort
each row by x (lines 109-111). -/
def organizeBubblesByRows (bs : List Bubble) : List (List Bubble) :=
  (clusterRows bs).map sortByX

/-- `choices = ['A', 'B', 'C', 'D']` (line 121). -/
def choices : List Char := ['A', 'B', 'C', 'D']

/-- The answer loop of `map_bubbles_to_questions` (lines 142-145 / 152-155):
walk bubbles and letters in parallel, return the letter of the first bubble
whose fill ratio strictly exceeds the threshold, then stop (`break`). -/
def firstMarked (th : ℚ) : List Bubble → List Char → Option Char
  | b :: bs, c :: cs => if th < b.fillRatio then some c else firstMarked th bs cs
  | _, _ => none

/-- `np.mean([b['center'][0] for b in row_bubbles])` (line 131). -/
def meanX (r : List Bubble) : ℚ := (r.map fun b => (b.cx : ℚ)).sum / r.length

/-- `np.mean([b['center'][1] for b in row_bubbles])`, the sort key of
line 124. -/
def meanY (r : List Bubble) : ℚ := (r.map fun b => (b.cy : ℚ)).sum / r.length

/-- `left_bubbles = [b for b in row_bubbles if b['center'][0] < avg_x]`. -/
def leftBubbles (r : List Bubble) : List Bubble :=
  r.filter fun b => decide ((b.cx : ℚ) < meanX r)

/-- `right_bubbles = [b for b in row_bubbles if b['center'][0] >= avg_x]`. -/
def rightBubbles (r : List Bubble) : List Bubble :=
  r.filter fun b => decide (meanX r ≤ (b.cx : ℚ))

/-- One side of a row: sort by x, take the first 4 bubbles, resolve against
the letters A-D (lines 139, 142 / 149, 152). -/
def sideAnswer (th : ℚ) (bs : List Bubble) : Option Char :=
  firstMarked th ((sortByX bs).take 4) choices

/-- Left-side processing of one row (lines 138-145): requires at least 4
left bubbles and `question_num = row_idx + 1 <= 25`; contributes at most the
single entry `(row_idx + 1, letter)`. -/
def leftEntries (th : ℚ) (i : Nat) (r : List Bubble) : List (Nat × Char) :=
  if 4 ≤ (leftBubbles r).length then
    if i + 1 ≤ 25 then
      match sideAnswer th (leftBubbles r) with
      | some c => [(i + 1, c)]
      | none => []
    else []
  else []

/-- Right-side processing of one row (lines 148-155): requires at least 4
right bubbles and `question_num = row_idx + 26 <= 50`. -/
def rightEntries (th : ℚ) (i : Nat) (r : List Bubble) : List (Nat × Char) :=
  if 4 ≤ (rightBubbles r).length then
    if i + 26 ≤ 50 then
      match sideAnswer th (rightBubbles r) with
      | some c => [(i + 26, c)]
      | none => []
    else []
  else []

/-- Processing of one row of `map_bubbles_to_questions` (lines 126-155):
rows with fewer than 4 bubbles are skipped (`continue`), otherwise the row is
split at its mean x into left and right question blocks. -/
def processRow (th : ℚ) (i : Nat) (r : List Bubble) : List (Nat × Char) :=
  if r.length < 4 then [] else leftEntries th i r ++ rightEntries th i r

/-- The `enumerate(sorted_rows)` loop: row index `i` counts every row of the
sorted sequence, skipped or not. -/
def mapRows (th : ℚ) : Nat → List (List Bubble) → List (Nat × Char)
  | _, [] => []
  | i, r :: rs => processRow th i r ++ mapRows th (i + 1) rs

/-- Comparison for `sorted(organized_bubbles.items(), key=mean y)`. -/
def rowLeMeanY (a b : List Bubble) : Prop := meanY a ≤ meanY b

instance : DecidableRel rowLeMeanY := fun a b => inferInstanceAs (Decidable (meanY a ≤ meanY b))

/-- Stable sort of the rows by mean y-coordinate (line 124). -/
def sortRowsByMeanY (rows : List (List Bubble)) : List (List Bubble) :=
  List.insertionSort rowLeMeanY rows

/-- `MCQAnswerSheetScanner.map_bubbles_to_questions` (lines 115-157).  The
answers dict receives pairwise-distinct keys (proved below), so the
association list built in loop order is a faithful model. -/
def mapBubblesToQuestions (th : ℚ) (rows : List (List Bubble)) : List (Nat × Char) :=
  mapRows th 0 (sortRowsByMeanY rows)

/-- `MCQAnswerSheetScanner.preprocess_image` (lines 13-30): `cv2.imread`
returning `None` (modelled by the `Option`) raises
`ValueError(f"Could not load image from {image_path}")`; otherwise the
grayscale/blur/adaptive-threshold chain (opaque OpenCV calls) yields the
thresholded image. -/
def preprocessImage (path : String) (loaded : Option ThreshImage) : Except String ThreshImage :=
  match loaded with
  | none => Except.error ("Could not load image from " ++ path)
  | some img => Except.ok img

/-- `MCQAnswerSheetScanner.scan_answer_sheet` (lines 159-201).  The whole
body is wrapped in `try/except`: any exception is caught, the message
`"Error scanning answer sheet: ..."` is printed, and the empty dict is
returned.  Printed lines are modelled as the second component; the debug
branch only writes diagnostics and never changes the returned mapping. -/
def scanAnswerSheet (th : ℚ) (debug : Bool) (outputDir path : String)
    (loaded : Option ThreshImage) : List (Nat × Char) × List String :=
  match preprocessImage path loaded with
  | Except.error e => ([], ["Error scanning answer sheet: " ++ e])
  | Except.ok timg =>
      let bubbles := detectBubbles timg
      let rows := organizeBubblesByRows bubbles
      let answers := mapBubblesToQuestions th rows
      (answers,
        if debug then
          ["Detected " ++ toString bubbles.length ++ " potential bubbles",
           "Organized into " ++ toString rows.length ++ " rows",
           "Debug image saved as " ++ outputDir ++ "/debug_bubbles.jpg"]
        else [])

/-! ## Embedding of `ImageStraightener.detect_corner_markers` -/

/-- The fallback corner set (lines 54-57): inset from the image bounds by a
fixed 50px margin, in order top-left, top-right, bottom-right, bottom-left. -/
def fallbackCorners (width height : Nat) : List (Int × Int) :=
  [(50, 50), ((width : Int) - 50, 50),
   ((width : Int) - 50, (height : Int) - 50), (50, (height : Int) - 50)]

/-- The per-contour filter of `detect_corner_markers` (lines 24-41): marker
area band `100 < area < 2000`, roughly square aspect `0.7 < w/h < 1.3`, and
centroid within 100px of one of the four image corners; survivors yield
their centers. -/
def markerCandidate (width height : Nat) (c : Contour) : Option (Int × Int) :=
  if 100 < c.area ∧ c.area < 2000 then
    if 7/10 < (c.w : ℚ) / (c.h : ℚ) ∧ (c.w : ℚ) / (c.h : ℚ) < 13/10 then
      let cx : Int := ((c.x + c.w / 2 : Nat) : Int)
      let cy : Int := ((c.y + c.h / 2 : Nat) : Int)
      if (cx < 100 ∨ (width : Int) - 100 < cx) ∧ (cy < 100 ∨ (height : Int) - 100 < cy) then
        some (cx, cy)
      else none
    else none
  else none

/-- The centers surviving the filter, in contour order. -/
def survivingCorners (width height : Nat) (cs : List Contour) : List (Int × Int) :=
  cs.filterMap (markerCandidate width height)

/-- Python tuple comparison used by `sorted(corners)`: lexicographic. -/
def cornerLe (a b : Int × Int) : Prop := a.1 < b.1 ∨ (a.1 = b.1 ∧ a.2 ≤ b.2)

instance : DecidableRel cornerLe :=
  fun a b => inferInstanceAs (Decidable (a.1 < b.1 ∨ (a.1 = b.1 ∧ a.2 ≤ b.2)))

/-- `sorted` on center tuples. -/
def sortLex (l : List (Int × Int)) : List (Int × Int) := List.insertionSort cornerLe l

/-- `top_corners = sorted([c for c in corners if c[1] < height // 2])`
(line 47), computed on the already-sorted corner list. -/
def topHalf (width height : Nat) (cs : List Contour) : List (Int × Int) :=
  sortLex ((sortLex (survivingCorners width height cs)).filter
    fun c => decide (c.2 < ((height / 2 : Nat) : Int)))

/-- `bottom_corners = sorted([c for c in corners if c[1] >= height // 2])`
(line 48). -/
def bottomHalf (width height : Nat) (cs : List Contour) : List (Int × Int) :=
  sortLex ((sortLex (survivingCorners width height cs)).filter
    fun c => decide (((height / 2 : Nat) : Int) ≤ c.2))

/-- `ImageStraightener.detect_corner_markers` (lines 15-57): if at least 4
markers survive and each half holds at least 2, return
[leftmost top, rightmost top, rightmost bottom, leftmost bottom]
(`top_corners[0], top_corners[-1], bottom_corners[-1], bottom_corners[0]`
of the lexicographically sorted halves); otherwise the 50px-inset fallback. -/
def detectCornerMarkers (width height : Nat) (cs : List Contour) : List (Int × Int) :=
  if 4 ≤ (survivingCorners width height cs).length then
    if 2 ≤ (topHalf width height cs).length ∧ 2 ≤ (bottomHalf width height cs).length then
      [(topHalf width height cs).headD (0, 0),
       (topHalf width height cs).getLastD (0, 0),
       (bottomHalf width height cs).getLastD (0, 0),
       (bottomHalf width height cs).headD (0, 0)]
    else fallbackCorners width height
  else fallbackCorners width height

/-! ## Helper lemmas about the answer-resolution loop -/

theorem firstMarked_mem (th : ℚ) :
    ∀ (bs : List Bubble) (cs : List Char) (c : Char),
      firstMarked th bs cs = some c → c ∈ cs
  | [], _, c => by simp [firstMarked]
  | _ :: _, [], c => by simp [firstMarked]
  | b :: bs, c' :: cs, c => by
    simp only [firstMarked]
    split
    · intro h
      cases h
      exact List.mem_cons_self _ _
    · intro h
      exact List.mem_cons_of_mem _ (firstMarked_mem th bs cs c h)

theorem firstMarked_exists_marked (th : ℚ) :
    ∀ (bs : List Bubble) (cs : List Char) (c : Char),
      firstMarked th bs cs = some c → ∃ b ∈ bs, th < b.fillRatio
  | [], _, c => by simp [firstMarked]
  | _ :: _, [], c => by simp [firstMarked]
  | b :: bs, c' :: cs, c => by
    simp only [firstMarked]
    split
    · intro _
      exact ⟨b, List.mem_cons_self _ _, by assumption⟩
    · intro h
      obtain ⟨b', hb', hlt⟩ := firstMarked_exists_marked th bs cs c h
      exact ⟨b', List.mem_cons_of_mem _ hb', hlt⟩

theorem sideAnswer_mem_choices (th : ℚ) (bs : List Bubble) (c : Char)
    (h : sideAnswer th bs = some c) : c ∈ choices :=
  firstMarked_mem th _ _ c h

theorem sideAnswer_exists_marked (th : ℚ) (bs : List Bubble) (c : Char)
    (h : sideAnswer th bs = some c) : ∃ b ∈ bs, th < b.fillRatio := by
  obtain ⟨b, hb, hlt⟩ := firstMarked_exists_marked th _ _ c h
  refine ⟨b, ?_, hlt⟩
  have hb' : b ∈ sortByX bs := List.take_subset 4 _ hb
  exact ((List.perm_insertionSort bubbleLeX bs).mem_iff).mp hb'

theorem sideAnswer_eq_none (th : ℚ) (bs : List Bubble)
    (h : ∀ b ∈ bs, b.fillRatio ≤ th) : sideAnswer th bs = none := by
  cases hr : sideAnswer th bs with
  | none => rfl
  | some c =>
    obtain ⟨b, hb, hlt⟩ := sideAnswer_exists_marked th bs c hr
    exact absurd hlt (not_lt.mpr (h b hb))

theorem mem_leftEntries (th : ℚ) (i : Nat) (r : List Bubble) (q : Nat) (c : Char)
    (h : (q, c) ∈ leftEntries th i r) :
    q = i + 1 ∧ i + 1 ≤ 25 ∧ 4 ≤ (leftBubbles r).length ∧
      sideAnswer th (leftBubbles r) = some c := by
  unfold leftEntries at h
  split at h
  · split at h
    · split at h
      · simp only [List.mem_singleton, Prod.mk.injEq] at h
        exact ⟨h.1, by assumption, by assumption, by rw [h.2]; assumption⟩
      · simp at h
    · simp at h
  · simp at h

theorem mem_rightEntries (th : ℚ) (i : Nat) (r : List Bubble) (q : Nat) (c : Char)
    (h : (q, c) ∈ rightEntries th i r) :
    q = i + 26 ∧ i + 26 ≤ 50 ∧ 4 ≤ (rightBubbles r).length ∧
      sideAnswer th (rightBubbles r) = some c := by
  unfold rightEntries at h
  split at h
  · split at h
    · split at h
      · simp only [List.mem_singleton, Prod.mk.injEq] at h
        exact ⟨h.1, by assumption, by assumption, by rw [h.2]; assumption⟩
      · simp at h
    · simp at h
  · simp at h

theorem mem_processRow (th : ℚ) (i : Nat) (r : List Bubble) (q : Nat) (c : Char)
    (h : (q, c) ∈ processRow th i r) :
    ((q = i + 1 ∧ i + 1 ≤ 25) ∨ (q = i + 26 ∧ i + 26 ≤ 50)) ∧ c ∈ choices := by
  unfold processRow at h
  split at h
  · simp at h
  · rcases List.mem_append.mp h with h' | h'
    · obtain ⟨hq, hle, _, hs⟩ := mem_leftEntries th i r q c h'
      exact ⟨Or.inl ⟨hq, hle⟩, sideAnswer_mem_choices th _ c hs⟩
    · obtain ⟨hq, hle, _, hs⟩ := mem_rightEntries th i r q c h'
      exact ⟨Or.inr ⟨hq, hle⟩, sideAnswer_mem_choices th _ c hs⟩

theorem processRow_unique (th : ℚ) (i : Nat) (r : List Bubble) (q : Nat) (c c' : Char)
    (h : (q, c) ∈ processRow th i r) (h' : (q, c') ∈ processRow th i r) : c = c' := by
  unfold processRow at h h'
  split at h
  · simp at h
  · split at h'
    · simp at h'
    · rcases List.mem_append.mp h with hl | hr <;>
        rcases List.mem_append.mp h' with hl' | hr'
      · have a := mem_leftEntries th i r q c hl
        have b := mem_leftEntries th i r q c' hl'
        have : some c = some c' := a.2.2.2.symm.trans b.2.2.2
        exact Option.some.inj this
      · have a := mem_leftEntries th i r q c hl
        have b := mem_rightEntries th i r q c' hr'
        omega
      · have a := mem_rightEntries th i r q c hr
        have b := mem_leftEntries th i r q c' hl'
        omega
      · have a := mem_rightEntries th i r q c hr
        have b := mem_rightEntries th i r q c' hr'
        have : some c = some c' := a.2.2.2.symm.trans b.2.2.2
        exact Option.some.inj this

theorem mem_mapRows (th : ℚ) :
    ∀ (rs : List (List Bubble)) (i q : Nat) (c : Char),
      (q, c) ∈ mapRows th i rs →
      ∃ j, i ≤ j ∧ ((q = j + 1 ∧ j + 1 ≤ 25) ∨ (q = j + 26 ∧ j + 26 ≤ 50)) ∧ c ∈ choices
  | [], i, q, c => by simp [mapRows]
  | r :: rs, i, q, c => by
    intro h
    rcases List.mem_append.mp h with h' | h'
    · obtain ⟨hq, hc⟩ := mem_processRow th i r q c h'
      exact ⟨i, le_refl i, hq, hc⟩
    · obtain ⟨j, hij, hq, hc⟩ := mem_mapRows th rs (i + 1) q c h'
      exact ⟨j, by omega, hq, hc⟩

theorem mapRows_unique (th : ℚ) :
    ∀ (rs : List (List Bubble)) (i q : Nat) (c c' : Char),
      (q, c) ∈ mapRows th i rs → (q, c') ∈ mapRows th i rs → c = c'
  | [], i, q, c, c' => by simp [mapRows]
  | r :: rs, i, q, c, c' => by
    intro h h'
    rcases List.mem_append.mp h with h1 | h1 <;> rcases List.mem_append.mp h' with h2 | h2
    · exact processRow_unique th i r q c c' h1 h2
    · obtain ⟨hq, _⟩ := mem_processRow th i r q c h1
      obtain ⟨j, hij, hq', _⟩ := mem_mapRows th rs (i + 1) q c' h2
      omega
    · obtain ⟨j, hij, hq', _⟩ := mem_mapRows th rs (i + 1) q c h1
      obtain ⟨hq, _⟩ := mem_processRow th i r q c' h2
      omega
    · exact mapRows_unique th rs (i + 1) q c c' h1 h2

theorem leftEntries_eq_nil (th : ℚ) (i : Nat) (r : List Bubble)
    (h : ∀ b ∈ r, b.fillRatio ≤ th) : leftEntries th i r = [] := by
  have hn : sideAnswer th (leftBubbles r) = none :=
    sideAnswer_eq_none th _ (fun b hb => h b (List.filter_subset' r hb))
  unfold leftEntries
  rw [hn]
  split
  · split <;> rfl
  · rfl

theorem rightEntries_eq_nil (th : ℚ) (i : Nat) (r : List Bubble)
    (h : ∀ b ∈ r, b.fillRatio ≤ th) : rightEntries th i r = [] := by
  have hn : sideAnswer th (rightBubbles r) = none :=
    sideAnswer_eq_none th _ (fun b hb => h b (List.filter_subset' r hb))
  unfold rightEntries
  rw [hn]
  split
  · split <;> rfl
  · rfl

theorem processRow_eq_nil (th : ℚ) (i : Nat) (r : List Bubble)
    (h : ∀ b ∈ r, b.fillRatio ≤ th) : processRow th i r = [] := by
  unfold processRow
  split
  · rfl
  · rw [leftEntries_eq_nil th i r h, rightEntries_eq_nil th i r h]
    rfl

theorem firstMarked_first_match (th : ℚ) :
    ∀ (pre : List Bubble) (cpre : List Char) (post : List Bubble) (b : Bubble)
      (cpost : List Char) (c : Char),
      pre.length = cpre.length → (∀ x ∈ pre, ¬ th < x.fillRatio) → th < b.fillRatio →
      firstMarked th (pre ++ b :: post) (cpre ++ c :: cpost) = some c
  | [], [], post, b, cpost, c => by
    intro _ _ hb
    simp [firstMarked, hb]
  | [], _ :: _, _, _, _, _ => by
    intro hlen
    simp at hlen
  | _ :: _, [], _, _, _, _ => by
    intro hlen
    simp at hlen
  | p :: ps, c' :: cs', post, b, cpost, c => by
    intro hlen hpre hb
    have hp : ¬ th < p.fillRatio := hpre p (List.mem_cons_self _ _)
    simp only [List.cons_append, firstMarked, if_neg hp]
    exact firstMarked_first_match th ps cs' post b cpost c (by simpa using hlen)
      (fun x hx => hpre x (List.mem_cons_of_mem _ hx)) hb

theorem mapRows_eq_nil (th : ℚ) :
    ∀ (rs : List (List Bubble)) (i : Nat),
      (∀ r ∈ rs, ∀ b ∈ r, b.fillRatio ≤ th) → mapRows th i rs = []
  | [], _, _ => rfl
  | r :: rs, i, h => by
    rw [mapRows, processRow_eq_nil th i r (h r (List.mem_cons_self _ _)),
      mapRows_eq_nil th rs (i + 1) (fun r' hr' => h r' (List.mem_cons_of_mem _ hr'))]
    rfl

/-! ## Concrete inputs used by witnesses and counterexamples -/

/-- A bubble with only a y-coordinate (all other fields zero). -/
def bubbleAtY (yc : Int) : Bubble := ⟨0, yc, 0, 0, 0, 0, 0⟩

/-- A bubble at x-coordinate `xc` with fill ratio `f`. -/
def probeBubble (xc : Int) (f : ℚ) : Bubble := ⟨xc, 0, 0, 0, 0, 0, f⟩

/-- A 2x2 marker-sized contour at column `xc` of the top row. -/
def rowContour (xc : Nat) : Contour := ⟨500, 10, xc, 0, 2, 2⟩

/-- A thresholded image whose contours form one bubble row of 8: four on the
left (the one at x = 0 inked solid) and four on the right (blank). -/
def imgOneAnswered : ThreshImage :=
  ⟨[[255, 255], [255, 255]],
   [rowContour 0, rowContour 10, rowContour 20, rowContour 30,
    rowContour 100, rowContour 110, rowContour 120, rowContour 130]⟩

/-- A row of five bubbles, heavily skewed so the mean-x split puts four on
the left; the leftmost one carries fill ratio `f0`, the rest `frest`. -/
def skewRow (f0 frest : ℚ) : List Bubble :=
  [probeBubble 0 f0, probeBubble 10 frest, probeBubble 20 frest,
   probeBubble 30 frest, probeBubble 1000 frest]

/-- Evaluation of the full scan pipeline on `imgOneAnswered`: question 1 is
answered A, everything else is absent from the mapping, and nothing is
printed. -/
theorem scan_imgOneAnswered_eval :
    scanAnswerSheet (3/5) false "." "sheet.png" (some imgOneAnswered) = ([(1, 'A')], []) := by
  norm_num [scanAnswerSheet, preprocessImage, detectBubbles, keepContour, mkBubble, npPi,
    boxSum, pixelAt, organizeBubblesByRows, clusterRows, sortByY, sortByX,
    List.insertionSort, List.orderedInsert, bubbleLeY, bubbleLeX, rowWalk,
    mapBubblesToQuestions, sortRowsByMeanY, rowLeMeanY, meanY, mapRows, processRow,
    leftEntries, rightEntries, leftBubbles, rightBubbles, meanX, sideAnswer, firstMarked,
    choices, rowContour, imgOneAnswered, List.filter, List.filterMap, List.range,
    List.range.loop]

/-- Evaluation of the question-mapping on the skewed row with the left-most
bubble solidly inked. -/
theorem map_skewRow_eval :
    mapBubblesToQuestions (3/5) [skewRow 1 0] = [(1, 'A')] := by
  norm_num [mapBubblesToQuestions, sortRowsByMeanY, rowLeMeanY, meanY,
    List.insertionSort, List.orderedInsert, mapRows, processRow, leftEntries, rightEntries,
    leftBubbles, rightBubbles, meanX, sideAnswer, sortByX, bubbleLeX, firstMarked, choices,
    skewRow, probeBubble, List.filter]

/-! ## Claim C1 -/

/-- C1 counterexample.  The claim states that a successful scan always
produces a mapping whose key set is the full range 1..50, with unanswered
questions explicitly present.  On `imgOneAnswered` the scan succeeds
(nothing printed, question 1 resolved to A), yet the produced mapping is the
single pair (1, A): question 2 (and every other question) is silently
omitted, not represented as unanswered. -/
theorem C1_counterexample :
    (scanAnswerSheet (3/5) false "." "sheet.png" (some imgOneAnswered)).1 = [(1, 'A')] ∧
    ((scanAnswerSheet (3/5) false "." "sheet.png" (some imgOneAnswered)).1).lookup 2 = none ∧
    (scanAnswerSheet (3/5) false "." "sheet.png" (some imgOneAnswered)).2 = [] := by
  rw [scan_imgOneAnswered_eval]
  exact ⟨rfl, rfl, rfl⟩

/-- C1 (amended): the key set of the mapping produced by a scan invocation
is a subset of the template range 1..50 consisting of the answered questions
only; questions with no bubble above threshold are omitted from the mapping
(`print_results` displays them as "No answer detected", but the
returned/saved mapping does not contain them). -/
theorem C1_amended_keys (th : ℚ) (dbg : Bool) (od p : String)
    (loaded : Option ThreshImage) (q : Nat) (c : Char)
    (h : (q, c) ∈ (scanAnswerSheet th dbg od p loaded).1) : 1 ≤ q ∧ q ≤ 50 := by
  cases loaded with
  | none => simp [scanAnswerSheet, preprocessImage] at h
  | some timg =>
    have h' : (q, c) ∈ mapBubblesToQuestions th (organizeBubblesByRows (detectBubbles timg)) := h
    obtain ⟨j, _, hq, _⟩ := mem_mapRows th _ 0 q c h'
    omega

/-- Witness for `C1_amended_keys` at the concrete scan of `imgOneAnswered`. -/
theorem C1_amended_keys_witness : 1 ≤ 1 ∧ (1 : Nat) ≤ 50 :=
  C1_amended_keys (3/5) false "." "sheet.png" (some imgOneAnswered) 1 'A'
    (by rw [scan_imgOneAnswered_eval]; exact List.mem_singleton.mpr rfl)

/-! ## Claim C3 -/

/-- C3 counterexample.  The claim states that an unreadable input makes the
invocation fail fatally with the error reported to the caller and no answer
mapping produced.  In the code, `scan_answer_sheet` catches the ValueError,
prints the message, and returns the empty dict: the call completes normally
and hands the caller an (empty) mapping, which `main` then saves as ordinary
output. -/
theorem C3_counterexample :
    scanAnswerSheet (3/5) false "." "missing.png" none =
      ([], ["Error scanning answer sheet: Could not load image from missing.png"]) := rfl

/-- C3 (amended): on an unreadable image, `preprocess_image` raises
ValueError naming the path; `scan_answer_sheet` catches every exception,
prints "Error scanning answer sheet: Could not load image from <path>", and
returns an empty mapping to its caller — the invocation itself does not
fail, and the empty mapping is produced as output. -/
theorem C3_amended_catch (th : ℚ) (dbg : Bool) (od p : String) :
    scanAnswerSheet th dbg od p none =
      ([], ["Error scanning answer sheet: " ++ ("Could not load image from " ++ p)]) := rfl

/-! ## Claim C4 -/

/-- C4: in the answer-resolution loop the bubbles of a row are walked in
option order (A, B, C, D); the first bubble whose fill ratio strictly
exceeds the threshold determines the answer and the loop breaks, so the
result does not depend on any bubble after the first match.  `pre` is the
prefix of unmarked bubbles, `b` the first marked bubble, and `post` the
arbitrary remainder that the loop never inspects. -/
theorem C4_first_match (th : ℚ) (pre post : List Bubble) (b : Bubble)
    (cpre cpost : List Char) (c : Char)
    (hlen : pre.length = cpre.length)
    (hpre : ∀ x ∈ pre, ¬ th < x.fillRatio)
    (hb : th < b.fillRatio) :
    firstMarked th (pre ++ b :: post) (cpre ++ c :: cpost) = some c :=
  firstMarked_first_match th pre cpre post b cpost c hlen hpre hb

/-- Witness for `C4_first_match`: bubbles A unmarked, B at 0.8, C at 0.9
(also above threshold), D unmarked; the resolver reports B. -/
theorem C4_first_match_witness :
    firstMarked (3/5)
      ([probeBubble 0 0] ++ probeBubble 10 (4/5) :: [probeBubble 20 (9/10), probeBubble 30 0])
      (['A'] ++ 'B' :: ['C', 'D']) = some 'B' :=
  C4_first_match (3/5) [probeBubble 0 0] [probeBubble 20 (9/10), probeBubble 30 0]
    (probeBubble 10 (4/5)) ['A'] ['C', 'D'] 'B' rfl
    (by intro x hx; simp [probeBubble] at hx; rw [hx]; norm_num [probeBubble])
    (by norm_num [probeBubble])

/-! ## Claim C6 -/

/-- C6: the marked/unmarked decision is a strict greater-than comparison
against the threshold, so a bubble whose fill ratio is exactly the threshold
(or below) is never treated as filled: if every bubble of every row is at or
below the threshold, the produced mapping is empty. -/
theorem C6_strict_threshold (th : ℚ) (rows : List (List Bubble))
    (h : ∀ r ∈ rows, ∀ b ∈ r, b.fillRatio ≤ th) :
    mapBubblesToQuestions th rows = [] := by
  unfold mapBubblesToQuestions
  refine mapRows_eq_nil th _ 0 (fun r hr => ?_)
  exact h r (((List.perm_insertionSort rowLeMeanY rows).mem_iff).mp hr)

/-- Witness for `C6_strict_threshold`: a full row of bubbles all at exactly
the 0.6 threshold resolves to no answer at all. -/
theorem C6_strict_threshold_witness :
    mapBubblesToQuestions (3/5) [skewRow (3/5) (3/5)] = [] :=
  C6_strict_threshold (3/5) [skewRow (3/5) (3/5)]
    (by
      intro r hr b hb
      simp only [List.mem_singleton] at hr
      subst hr
      have hf : b.fillRatio = 3/5 := by
        simp only [skewRow, probeBubble, List.mem_cons, List.not_mem_nil, or_false] at hb
        rcases hb with h | h | h | h | h <;> rw [h]
      rw [hf])

/-! ## Claim C7 -/

/-- C7 counterexample.  The claim states that questions of a skipped
(malformed) row surface as "unanswered" in the final mapping.  A row of only
3 bubbles — all of them marked well above threshold — is skipped, and its
question (number 1) is simply absent from the mapping: lookup finds nothing,
rather than an explicit "unanswered" entry. -/
theorem C7_counterexample :
    (mapBubblesToQuestions (3/5)
        [[probeBubble 0 (9/10), probeBubble 10 (9/10), probeBubble 20 (9/10)]]).lookup 1
      = none ∧
    (3 : ℚ)/5 < (probeBubble 0 (9/10)).fillRatio := by
  constructor
  · rfl
  · norm_num [probeBubble]

/-- C7 (amended): a row with fewer than 4 bubbles overall — or fewer than 4
on the left or right side of the mean-x split — contributes no entry for its
question numbers; those questions are omitted from the mapping (they are
only displayed as "No answer detected" at reporting time), and the scan is
not aborted. -/
theorem C7_amended_skip (th : ℚ) (i : Nat) (r : List Bubble) :
    (r.length < 4 → processRow th i r = []) ∧
    ((leftBubbles r).length < 4 → ∀ c, (i + 1, c) ∉ processRow th i r) ∧
    ((rightBubbles r).length < 4 → ∀ c, (i + 26, c) ∉ processRow th i r) := by
  refine ⟨fun h => by simp [processRow, h], fun h c hc => ?_, fun h c hc => ?_⟩
  · unfold processRow at hc
    split at hc
    · simp at hc
    · rcases List.mem_append.mp hc with h' | h'
      · obtain ⟨_, _, hlen, _⟩ := mem_leftEntries th i r (i + 1) c h'
        omega
      · obtain ⟨hq, _, _, _⟩ := mem_rightEntries th i r (i + 1) c h'
        omega
  · unfold processRow at hc
    split at hc
    · simp at hc
    · rcases List.mem_append.mp hc with h' | h'
      · obtain ⟨hq, _, _, _⟩ := mem_leftEntries th i r (i + 26) c h'
        omega
      · obtain ⟨_, _, hlen, _⟩ := mem_rightEntries th i r (i + 26) c h'
        omega

/-- Witness for `C7_amended_skip`: the 3-bubble row is skipped outright. -/
theorem C7_amended_skip_witness :
    processRow (3/5) 0 [probeBubble 0 (9/10), probeBubble 10 (9/10), probeBubble 20 (9/10)]
      = [] :=
  (C7_amended_skip (3/5) 0 _).1 (by decide)

/-! ## Claim C9 -/

/-- C9: the scan pipeline is deterministic — two invocations with the same
input image and the same configuration (threshold, debug flag, output
directory) produce identical answer mappings.  The embedded pipeline is a
pure function of its inputs; no other state enters the computation. -/
theorem C9_deterministic (th th' : ℚ) (dbg dbg' : Bool) (od od' p p' : String)
    (loaded loaded' : Option ThreshImage)
    (hth : th = th') (hdbg : dbg = dbg') (hod : od = od') (hp : p = p')
    (himg : loaded = loaded') :
    (scanAnswerSheet th dbg od p loaded).1 = (scanAnswerSheet th' dbg' od' p' loaded').1 := by
  subst hth hdbg hod hp himg
  rfl

/-- Witness for `C9_deterministic` at a concrete image and configuration. -/
theorem C9_deterministic_witness :
    (scanAnswerSheet (3/5) true "out" "sheet.png" (some imgOneAnswered)).1 =
      (scanAnswerSheet (3/5) true "out" "sheet.png" (some imgOneAnswered)).1 :=
  C9_deterministic (3/5) (3/5) true true "out" "out" "sheet.png" "sheet.png"
    (some imgOneAnswered) (some imgOneAnswered) rfl rfl rfl rfl rfl

/-! ## Claim C10 -/

/-- C10: for every input set of organized bubble rows, the mapping returned
by `map_bubbles_to_questions` has keys in 1..50, assigns at most one letter
per question, and only ever produces letters from {A, B, C, D} — never E. -/
theorem C10_invariants (th : ℚ) (rows : List (List Bubble)) (q : Nat) (c c' : Char) :
    ((q, c) ∈ mapBubblesToQuestions th rows →
      (1 ≤ q ∧ q ≤ 50) ∧ c ∈ choices ∧ c ≠ 'E') ∧
    ((q, c) ∈ mapBubblesToQuestions th rows →
      (q, c') ∈ mapBubblesToQuestions th rows → c = c') := by
  constructor
  · intro h
    obtain ⟨j, _, hq, hc⟩ := mem_mapRows th _ 0 q c h
    refine ⟨by omega, hc, ?_⟩
    simp only [choices, List.mem_cons, List.not_mem_nil, or_false] at hc
    rcases hc with h' | h' | h' | h' <;> (subst h'; decide)
  · intro h h'
    exact mapRows_unique th _ 0 q c c' h h'

/-- Witness for `C10_invariants` on the concrete skewed row: question 1 maps
to A, uniquely. -/
theorem C10_invariants_witness :
    (((1 : Nat) ≤ 1 ∧ (1 : Nat) ≤ 50) ∧ 'A' ∈ choices ∧ 'A' ≠ 'E') ∧ 'A' = 'A' :=
  ⟨(C10_invariants (3/5) [skewRow 1 0] 1 'A' 'A').1
      (by rw [map_skewRow_eval]; exact List.mem_singleton.mpr rfl),
   (C10_invariants (3/5) [skewRow 1 0] 1 'A' 'A').2
      (by rw [map_skewRow_eval]; exact List.mem_singleton.mpr rfl)
      (by rw [map_skewRow_eval]; exact List.mem_singleton.mpr rfl)⟩

/-! ## Claim C2 -/

/-- Within-row cohesion: the row is nonempty and every member lies within
`tol` of the row's first bubble — the bubble `last_y` held when the row was
opened. -/
def rowAnchored (tol : Int) : List Bubble → Prop
  | [] => False
  | a :: rest => ∀ x ∈ a :: rest, |x.cy - a.cy| ≤ tol

/-- Between-row separation: the first bubbles (anchors) of consecutive rows
are more than `tol` apart in y. -/
def anchorSep (tol : Int) : List (List Bubble) → Prop
  | (a₁ :: _) :: (a₂ :: r₂) :: rs => tol < |a₂.cy - a₁.cy| ∧ anchorSep tol ((a₂ :: r₂) :: rs)
  | _ => True

theorem rowWalk_firstRow (tol : Int) (a : Bubble) :
    ∀ (bs : List Bubble) (lastY : Int) (cur : List Bubble),
      ∃ r rs, rowWalk tol lastY (a :: cur) bs = r :: rs ∧ r.head? = some a
  | [], _, cur => ⟨a :: cur, [], rfl, rfl⟩
  | b :: rest, lastY, cur => by
    simp only [rowWalk]
    split
    · exact ⟨a :: cur, _, rfl, rfl⟩
    · have h := rowWalk_firstRow tol a rest lastY (cur ++ [b])
      simpa using h

theorem rowWalk_spec (tol : Int) (htol : 0 ≤ tol) :
    ∀ (bs : List Bubble) (lastY : Int) (a : Bubble) (cur : List Bubble),
      a.cy = lastY → (∀ x ∈ a :: cur, |x.cy - lastY| ≤ tol) →
      (∀ r ∈ rowWalk tol lastY (a :: cur) bs, rowAnchored tol r) ∧
        anchorSep tol (rowWalk tol lastY (a :: cur) bs)
  | [], lastY, a, cur => by
    intro ha hcoh
    constructor
    · intro r hr
      simp only [rowWalk, List.mem_singleton] at hr
      subst hr
      simp only [rowAnchored]
      intro x hx
      rw [ha]
      exact hcoh x hx
    · trivial
  | b :: rest, lastY, a, cur => by
    intro ha hcoh
    simp only [rowWalk]
    by_cases hgap : tol < |b.cy - lastY|
    · rw [if_pos hgap]
      obtain ⟨hrows, hsep⟩ := rowWalk_spec tol htol rest b.cy b [] rfl
        (by
          intro x hx
          simp only [List.mem_singleton] at hx
          subst hx
          simpa using htol)
      constructor
      · intro r hr
        rcases List.mem_cons.mp hr with hr' | hr'
        · subst hr'
          simp only [rowAnchored]
          intro x hx
          rw [ha]
          exact hcoh x hx
        · exact hrows r hr'
      · obtain ⟨r, rs, heq, hhead⟩ := rowWalk_firstRow tol b rest b.cy []
        rw [heq] at hsep ⊢
        cases r with
        | nil => simp at hhead
        | cons rb rtl =>
          have hrb : rb = b := by simpa using hhead
          subst hrb
          refine ⟨?_, hsep⟩
          rw [ha]
          exact hgap
    · rw [if_neg hgap]
      have hcoh' : ∀ x ∈ a :: (cur ++ [b]), |x.cy - lastY| ≤ tol := by
        intro x hx
        simp only [List.mem_cons, List.mem_append, List.mem_singleton,
          List.not_mem_nil, or_false] at hx
        rcases hx with hx | hx | hx
        · exact hcoh x (by simp [hx])
        · exact hcoh x (by simp [hx])
        · subst hx
          exact not_lt.mp hgap
      have h := rowWalk_spec tol htol rest lastY a (cur ++ [b]) ha hcoh'
      simpa using h

/-- C2 counterexample.  With tolerance 20, the candidates at y = 0, 15, 30
(already sorted by y) show the claim false: the consecutive pair (15, 30)
differs by only 15 < 20, yet 15 ends up in the first row and 30 opens a
second row, because the walk measures the gap against `last_y` — the y of
the bubble that opened the current row (0) — not against the previous
candidate. -/
theorem C2_counterexample :
    clusterRows [bubbleAtY 0, bubbleAtY 15, bubbleAtY 30] =
      [[bubbleAtY 0, bubbleAtY 15], [bubbleAtY 30]] ∧
    |(bubbleAtY 30).cy - (bubbleAtY 15).cy| < 20 := by
  constructor
  · decide
  · decide

/-- C2 (amended): walking the y-sorted candidates, a new row starts exactly
when the y-gap from the current row's anchor — the candidate that opened the
row, held in `last_y` — exceeds the 20px tolerance.  Hence every candidate
lies within 20px of its row's first candidate, and the first candidates of
consecutive rows are more than 20px apart; two consecutive candidates less
than 20px apart can still land in different rows when the earlier one sits
far from its row's anchor. -/
theorem C2_amended_anchor (bs : List Bubble) :
    (∀ r ∈ clusterRows bs, rowAnchored 20 r) ∧ anchorSep 20 (clusterRows bs) := by
  unfold clusterRows
  cases h : sortByY bs with
  | nil => exact ⟨fun r hr => absurd hr (List.not_mem_nil r), trivial⟩
  | cons b rest =>
    have h0 : ¬ (20 : Int) < |b.cy - b.cy| := by simp
    simp only [rowWalk, if_neg h0, List.nil_append]
    exact rowWalk_spec 20 (by norm_num) rest b.cy b [] rfl
      (by
        intro x hx
        simp only [List.mem_singleton] at hx
        subst hx
        simp)

/-- Witness for `C2_amended_anchor` on the concrete y = 0, 15, 30 input:
the first produced row is anchored at y = 0 within the tolerance. -/
theorem C2_amended_anchor_witness :
    rowAnchored 20 [bubbleAtY 0, bubbleAtY 15] :=
  (C2_amended_anchor [bubbleAtY 0, bubbleAtY 15, bubbleAtY 30]).1
    [bubbleAtY 0, bubbleAtY 15] (by decide)

/-! ## Claim C5 -/

/-- C5: `detect_corner_markers` is total (the embedding is a plain function:
no code path can raise) and always returns exactly 4 points.  When fewer
than 4 markers survive filtering, or the top or bottom half holds fewer than
2 of them, it returns the deterministic fallback corner set inset 50px from
the image bounds; otherwise it returns the leftmost/rightmost survivor of
each half, in the canonical order top-left, top-right, bottom-right,
bottom-left. -/
theorem C5_corner_contract (width height : Nat) (cs : List Contour) :
    (detectCornerMarkers width height cs).length = 4 ∧
    ((survivingCorners width height cs).length < 4 ∨
        (topHalf width height cs).length < 2 ∨ (bottomHalf width height cs).length < 2 →
      detectCornerMarkers width height cs = fallbackCorners width height) ∧
    (4 ≤ (survivingCorners width height cs).length →
      2 ≤ (topHalf width height cs).length → 2 ≤ (bottomHalf width height cs).length →
      detectCornerMarkers width height cs =
        [(topHalf width height cs).headD (0, 0),
         (topHalf width height cs).getLastD (0, 0),
         (bottomHalf width height cs).getLastD (0, 0),
         (bottomHalf width height cs).headD (0, 0)]) := by
  unfold detectCornerMarkers
  by_cases h1 : 4 ≤ (survivingCorners width height cs).length
  · rw [if_pos h1]
    by_cases h2 : 2 ≤ (topHalf width height cs).length ∧
        2 ≤ (bottomHalf width height cs).length
    · rw [if_pos h2]
      exact ⟨rfl, fun hcond => by omega, fun _ _ _ => rfl⟩
    · rw [if_neg h2]
      exact ⟨rfl, fun _ => rfl, fun _ ht hb => absurd ⟨ht, hb⟩ h2⟩
  · rw [if_neg h1]
    exact ⟨rfl, fun _ => rfl, fun h1' _ _ => absurd h1' h1⟩

/-- A 20x20 marker-sized square contour with centroid at
(`xc` + 10, `yc` + 10). -/
def cornerContour (xc yc : Nat) : Contour := ⟨400, 0, xc, yc, 20, 20⟩

/-- Four well-placed corner markers on a 400x400 image. -/
def cornerContoursDemo : List Contour :=
  [cornerContour 10 10, cornerContour 360 10, cornerContour 360 360, cornerContour 10 360]

theorem survivingCorners_demo_eval :
    survivingCorners 400 400 cornerContoursDemo =
      [(20, 20), (370, 20), (370, 370), (20, 370)] := by
  norm_num [survivingCorners, markerCandidate, cornerContoursDemo, cornerContour,
    List.filterMap]

theorem topHalf_demo_eval : topHalf 400 400 cornerContoursDemo = [(20, 20), (370, 20)] := by
  norm_num [topHalf, sortLex, List.insertionSort, List.orderedInsert, cornerLe,
    survivingCorners, markerCandidate, cornerContoursDemo, cornerContour,
    List.filterMap, List.filter]

theorem bottomHalf_demo_eval :
    bottomHalf 400 400 cornerContoursDemo = [(20, 370), (370, 370)] := by
  norm_num [bottomHalf, sortLex, List.insertionSort, List.orderedInsert, cornerLe,
    survivingCorners, markerCandidate, cornerContoursDemo, cornerContour,
    List.filterMap, List.filter]

/-- Witness for `C5_corner_contract`: the fallback fires on an image with no
contours at all, and the detected branch fires on the four demo markers. -/
theorem C5_corner_contract_witness :
    detectCornerMarkers 400 400 [] = fallbackCorners 400 400 ∧
    detectCornerMarkers 400 400 cornerContoursDemo =
      [(topHalf 400 400 cornerContoursDemo).headD (0, 0),
       (topHalf 400 400 cornerContoursDemo).getLastD (0, 0),
       (bottomHalf 400 400 cornerContoursDemo).getLastD (0, 0),
       (bottomHalf 400 400 cornerContoursDemo).headD (0, 0)] :=
  ⟨(C5_corner_contract 400 400 []).2.1 (Or.inl (by decide)),
   (C5_corner_contract 400 400 cornerContoursDemo).2.2
     (by rw [survivingCorners_demo_eval]; decide)
     (by rw [topHalf_demo_eval]; decide)
     (by rw [bottomHalf_demo_eval]; decide)⟩

/-! ## Claim C8 -/

theorem forall_mem_getD_row (ll : List (List Nat)) (r : Nat)
    (h : ∀ row ∈ ll, ∀ v ∈ row, v ≤ 255) : ∀ v ∈ ll.getD r [], v ≤ 255 := by
  rw [List.getD_eq_getElem?_getD]
  cases hg : ll[r]? with
  | none => simp
  | some l =>
    simp only [Option.getD_some]
    refine h l ?_
    rw [← List.get?_eq_getElem?] at hg
    exact List.get?_mem hg

theorem getD_le_255 (l : List Nat) (c : Nat) (h : ∀ v ∈ l, v ≤ 255) : l.getD c 0 ≤ 255 := by
  rw [List.getD_eq_getElem?_getD]
  cases hg : l[c]? with
  | none => simp
  | some v =>
    simp only [Option.getD_some]
    refine h v ?_
    rw [← List.get?_eq_getElem?] at hg
    exact List.get?_mem hg

theorem pixelAt_le (img : ThreshImage)
    (hpix : ∀ row ∈ img.pixels, ∀ v ∈ row, v ≤ 255) (r c : Nat) :
    pixelAt img r c ≤ 255 :=
  getD_le_255 _ c (forall_mem_getD_row img.pixels r hpix)

theorem boxSum_le (img : ThreshImage)
    (hpix : ∀ row ∈ img.pixels, ∀ v ∈ row, v ≤ 255) (x y w h : Nat) :
    boxSum img x y w h ≤ 255 * w * h := by
  unfold boxSum
  have hrow : ∀ i : Nat,
      ((List.range w).map fun j => pixelAt img (y + i) (x + j)).sum ≤ w * 255 := by
    intro i
    have hb : ∀ v ∈ (List.range w).map fun j => pixelAt img (y + i) (x + j), v ≤ 255 := by
      intro v hv
      obtain ⟨j, _, rfl⟩ := List.mem_map.mp hv
      exact pixelAt_le img hpix (y + i) (x + j)
    have hs := List.sum_le_card_nsmul _ 255 hb
    simpa [nsmul_eq_mul] using hs
  have hout : ∀ v ∈ (List.range h).map
      fun i => ((List.range w).map fun j => pixelAt img (y + i) (x + j)).sum, v ≤ w * 255 := by
    intro v hv
    obtain ⟨i, _, rfl⟩ := List.mem_map.mp hv
    exact hrow i
  have hs := List.sum_le_card_nsmul _ (w * 255) hout
  have : ((List.range h).map
      fun i => ((List.range w).map fun j => pixelAt img (y + i) (x + j)).sum).sum ≤
        h * (w * 255) := by
    simpa [nsmul_eq_mul] using hs
  calc ((List.range h).map
      fun i => ((List.range w).map fun j => pixelAt img (y + i) (x + j)).sum).sum
      ≤ h * (w * 255) := this
    _ = 255 * w * h := by ring

/-- C8: every bubble candidate produced by `detect_bubbles` carries a fill
ratio equal to the sum of binary pixel values over its bounding box divided
by 255 times the box area, and (as every thresholded pixel is at most 255)
that ratio lies in the closed interval [0, 1]. -/
theorem C8_fill_ratio (img : ThreshImage) (b : Bubble)
    (hpix : ∀ row ∈ img.pixels, ∀ v ∈ row, v ≤ 255)
    (hb : b ∈ detectBubbles img) :
    0 ≤ b.fillRatio ∧ b.fillRatio ≤ 1 ∧
      b.fillRatio =
        (boxSum img b.x b.y b.w b.h : ℚ) / (255 * (b.w : ℚ) * (b.h : ℚ)) := by
  obtain ⟨c, _, rfl⟩ := List.mem_map.mp hb
  refine ⟨?_, ?_, rfl⟩
  · show (0 : ℚ) ≤ (boxSum img c.x c.y c.w c.h : ℚ) / (255 * (c.w : ℚ) * (c.h : ℚ))
    positivity
  · show (boxSum img c.x c.y c.w c.h : ℚ) / (255 * (c.w : ℚ) * (c.h : ℚ)) ≤ 1
    rcases eq_or_ne ((255 : ℚ) * (c.w : ℚ) * (c.h : ℚ)) 0 with h0 | h0
    · rw [h0, div_zero]
      norm_num
    · have hpos : 0 < (255 : ℚ) * (c.w : ℚ) * (c.h : ℚ) :=
        lt_of_le_of_ne (by positivity) (Ne.symm h0)
      rw [div_le_one hpos]
      have hnat := boxSum_le img hpix c.x c.y c.w c.h
      calc (boxSum img c.x c.y c.w c.h : ℚ) ≤ ((255 * c.w * c.h : Nat) : ℚ) := by
            exact_mod_cast hnat
        _ = 255 * (c.w : ℚ) * (c.h : ℚ) := by push_cast; ring

/-- The contour of a fully inked 2x2 bubble. -/
def inkContour : Contour := ⟨500, 10, 0, 0, 2, 2⟩

/-- A 2x2 all-ink thresholded image holding `inkContour`. -/
def inkImg : ThreshImage := ⟨[[255, 255], [255, 255]], [inkContour]⟩

theorem detect_inkImg_eval : detectBubbles inkImg = [mkBubble inkImg inkContour] := by
  norm_num [detectBubbles, keepContour, npPi, inkImg, inkContour, List.filter]

/-- Witness for `C8_fill_ratio` on the fully inked bubble. -/
theorem C8_fill_ratio_witness :
    0 ≤ (mkBubble inkImg inkContour).fillRatio ∧
    (mkBubble inkImg inkContour).fillRatio ≤ 1 ∧
    (mkBubble inkImg inkContour).fillRatio =
      (boxSum inkImg (mkBubble inkImg inkContour).x (mkBubble inkImg inkContour).y
          (mkBubble inkImg inkContour).w (mkBubble inkImg inkContour).h : ℚ) /
        (255 * ((mkBubble inkImg inkContour).w : ℚ) * ((mkBubble inkImg inkContour).h : ℚ)) :=
  C8_fill_ratio inkImg (mkBubble inkImg inkContour) (by decide)
    (by rw [detect_inkImg_eval]; exact List.mem_singleton.mpr rfl)

end MCQDetect
